import Mathlib

/-!
Verification of the MentOS kernel heap allocator (mentos/src/mem/kheap.c).

The development shallowly embeds the allocator state and every operation of
kheap.c: block records with the size/free-bit encoding, the address-ordered
block list and the unordered free list threaded through the same records, the
free-list manager, best-fit search, block splitting and merging, heap growth
via brk, and the sys_brk facade with lazy heap-region creation.

Memory is modelled as an association list from addresses (Nat) to block
records; reading an address that holds no record yields the all-zero record,
matching the memset-zeroed heap region. Pointers are Option Nat (none = NULL).
Machine arithmetic that can wrap in C (uint32_t additions and subtractions on
size fields and the brk cursor) is performed modulo 2^32 via add32/sub32.
C assert failures are modelled as the .error case of Except String; they are
fatal and carry the assertion message from the source.
-/

namespace Kheap

/-- Block record, mirroring struct block_t of kheap.c: a size field whose
lowest bit is the free flag, the free-list links nextfree/prevfree, and the
address-ordered list links prev/next. -/
structure BlockT where
  size : Nat
  nextfree : Option Nat
  prevfree : Option Nat
  prev : Option Nat
  next : Option Nat
deriving Repr, DecidableEq

/-- The all-zero block record: what a read of memset-zeroed memory yields. -/
def zeroBlock : BlockT :=
  { size := 0, nextfree := none, prevfree := none, prev := none, next := none }

/-- Memory: association list from block addresses to block records. -/
abbrev Mem := List (Nat × BlockT)

/-- Read the block record stored at address a (zero record if absent). -/
def getBlock : Mem → Nat → BlockT
  | [], _ => zeroBlock
  | (a2, b) :: rest, a => if a = a2 then b else getBlock rest a

/-- Store a block record at address a (overwriting, or appending if absent). -/
def setBlock : Mem → Nat → BlockT → Mem
  | [], a, b => [(a, b)]
  | (a2, b2) :: rest, a, b => if a = a2 then (a, b) :: rest else (a2, b2) :: setBlock rest a b

/-- Update the block record at address a through f. -/
def updBlock (mem : Mem) (a : Nat) (f : BlockT → BlockT) : Mem :=
  setBlock mem a (f (getBlock mem a))

/-- Heap header, mirroring heap_header_t: head and tail of the address-ordered
block list and the head of the free list. -/
structure HeapHeader where
  head : Option Nat
  tail : Option Nat
  free : Option Nat
deriving Repr, DecidableEq

/-- The heap region of one process: the reserved range [vmStart, vmEnd), the
brk cursor of the memory descriptor, the header stored at vmStart, and the
block records. -/
structure Heap where
  vmStart : Nat
  vmEnd : Nat
  brk : Nat
  hdr : HeapHeader
  mem : Mem
deriving Repr, DecidableEq

/-- Overhead of a block record: sizeof(block_t) on the i386 target, one
uint32_t size field plus four 4-byte pointers. -/
def OVERHEAD : Nat := 20

/-- Size in bytes of heap_header_t on the i386 target: three 4-byte pointers. -/
def sizeof_heap_header_t : Nat := 12

/-- The uint32_t modulus. -/
def M32 : Nat := 4294967296

/-- uint32_t addition. -/
def add32 (a b : Nat) : Nat := (a + b) % M32

/-- uint32_t subtraction (two-complement wraparound for a < 2^32). -/
def sub32 (a b : Nat) : Nat := (a + (M32 - b % M32)) % M32

/-- BLOCK_REAL_SIZE: the size with the free bit masked out ((size)&0xFFFFFFFE). -/
def BLOCK_REAL_SIZE (s : Nat) : Nat := s - s % 2

/-- BLOCK_IS_FREE on the size field: the lowest bit. -/
def BLOCK_IS_FREE (s : Nat) : Bool := s % 2 == 1

/-- BLOCK_SET_FREE on the size field: set the lowest bit. -/
def BLOCK_SET_FREE (s : Nat) : Nat := if s % 2 == 1 then s else s + 1

/-- BLOCK_SET_USED on the size field: clear the lowest bit. -/
def BLOCK_SET_USED (s : Nat) : Nat := s - s % 2

/-- Modelled from the spec: the round_up helper comes from math.h, which is not
among the sources; the spec defines rounded_size(n) as real_size(n) rounded up
to the next multiple of 16. -/
def round_up (n m : Nat) : Nat := ((n + m - 1) / m) * m

/-- __blkmngr_get_rounded_size: the real size rounded up to a multiple of 16. -/
def __blkmngr_get_rounded_size (size : Nat) : Nat :=
  round_up (BLOCK_REAL_SIZE size) 16

/-- __blkmngr_does_it_fit on a block record: the block is free and its real
size is at least the real size of the request. -/
def __blkmngr_does_it_fit (b : BlockT) (size : Nat) : Bool :=
  decide (BLOCK_REAL_SIZE b.size ≥ BLOCK_REAL_SIZE size) && BLOCK_IS_FREE b.size

/-- __blkmngr_remove_from_freelist, lines 125-137 of kheap.c. Asserts only
that the block pointer is non-null; there is no membership check. -/
def __blkmngr_remove_from_freelist (h : Heap) (block : Nat) : Except String Heap :=
  if block = 0 then .error "Received null block." else
  let b := getBlock h.mem block
  let hdr1 := if h.hdr.free = some block then { h.hdr with free := b.nextfree } else h.hdr
  let mem1 :=
    if h.hdr.free = some block then h.mem
    else
      match b.prevfree with
      | some p => updBlock h.mem p (fun pb => { pb with nextfree := b.nextfree })
      | none => h.mem
  let mem2 :=
    match b.nextfree with
    | some n => updBlock mem1 n (fun nb => { nb with prevfree := b.prevfree })
    | none => mem1
  let mem3 := updBlock mem2 block (fun bb => { bb with prevfree := none, nextfree := none })
  .ok { h with hdr := hdr1, mem := mem3 }

/-- __blkmngr_add_to_freelist, lines 140-149 of kheap.c: LIFO push onto the
free-list head. -/
def __blkmngr_add_to_freelist (h : Heap) (block : Nat) : Except String Heap :=
  if block = 0 then .error "Received null block." else
  let mem1 :=
    match h.hdr.free with
    | some f => updBlock h.mem f (fun fb => { fb with prevfree := some block })
    | none => h.mem
  let mem2 := updBlock mem1 block (fun bb => { bb with prevfree := none, nextfree := h.hdr.free })
  .ok { h with hdr := { h.hdr with free := some block }, mem := mem2 }

/-- The loop body of __blkmngr_find_best_fitting: walk the pending part of the
free list keeping the best candidate so far; a candidate replaces the current
best only when it fits and its real size is strictly smaller. -/
def bestFitAux (size : Nat) : List (Nat × BlockT) → Option (Nat × BlockT) → Option (Nat × BlockT)
  | [], best => best
  | (a, b) :: rest, best =>
    if __blkmngr_does_it_fit b size then
      match best with
      | none => bestFitAux size rest (some (a, b))
      | some c =>
        if BLOCK_REAL_SIZE b.size < BLOCK_REAL_SIZE c.2.size then
          bestFitAux size rest (some (a, b))
        else
          bestFitAux size rest best
    else
      bestFitAux size rest best

/-- The nextfree-chain starting at a free-list head, cut off by fuel (the C
loop would diverge on a cyclic chain; every well-formed chain is shorter than
the number of records plus one). -/
def freeChainAux (mem : Mem) : Option Nat → Nat → List (Nat × BlockT)
  | none, _ => []
  | some _, 0 => []
  | some a, fuel + 1 => (a, getBlock mem a) :: freeChainAux mem (getBlock mem a).nextfree fuel

/-- __blkmngr_find_best_fitting, lines 155-166 of kheap.c: scan the free list
once and return the best-fitting block (as its address), if any. -/
def __blkmngr_find_best_fitting (h : Heap) (size : Nat) : Option Nat :=
  (bestFitAux size (freeChainAux h.mem h.hdr.free (h.mem.length + 1)) none).map Prod.fst

/-- __blkmngr_get_previous_block, lines 169-177: null for the list head,
otherwise the prev link. -/
def __blkmngr_get_previous_block (h : Heap) (block : Nat) : Except String (Option Nat) :=
  if block = 0 then .error "Received null block."
  else if h.hdr.head = some block then .ok none
  else .ok (getBlock h.mem block).prev

/-- __blkmngr_get_next_block, lines 180-188: null for the recorded tail,
otherwise the next link. -/
def __blkmngr_get_next_block (h : Heap) (block : Nat) : Except String (Option Nat) :=
  if block = 0 then .error "Received null block."
  else if h.hdr.tail = some block then .ok none
  else .ok (getBlock h.mem block).next

/-- __blkmngr_split_block, lines 190-222 of kheap.c, with the same write
order as the source: the split record is placed OVERHEAD + size bytes after
the base block, inherits the next/nextfree links, is threaded after the base
block in both lists, receives size real_size(block) - OVERHEAD - size in
uint32_t arithmetic, is marked free, and replaces the base block as tail when
the base block was the tail. -/
def __blkmngr_split_block (h : Heap) (block : Nat) (size : Nat) : Except String Heap :=
  if block = 0 then .error "Received NULL block." else
  let b := getBlock h.mem block
  if !BLOCK_IS_FREE b.size then .error "The block is not free." else
  let split := block + OVERHEAD + size
  let mem1 := updBlock h.mem split (fun s =>
    { s with prev := some block, prevfree := some block, next := b.next, nextfree := b.nextfree })
  let mem2 := updBlock mem1 block (fun bb => { bb with next := some split, nextfree := some split })
  let mem3 := updBlock mem2 split (fun s =>
    { s with size := sub32 (sub32 (BLOCK_REAL_SIZE b.size) OVERHEAD) size })
  let mem4 := updBlock mem3 block (fun bb => { bb with size := BLOCK_REAL_SIZE size })
  let mem5 := updBlock mem4 split (fun s => { s with size := BLOCK_SET_FREE s.size })
  let hdr1 := if h.hdr.tail = some block then { h.hdr with tail := some split } else h.hdr
  .ok { h with hdr := hdr1, mem := mem5 }

/-- __blkmngr_merge_blocks, lines 224-255 of kheap.c: both blocks must be
free and link-adjacent; the second is removed from the free list, folded into
the first (payloads plus one record of overhead), and the first becomes tail
if the second was. -/
def __blkmngr_merge_blocks (h : Heap) (block1 block2 : Nat) : Except String Heap :=
  if block1 = 0 then .error "Received NULL first block." else
  if block2 = 0 then .error "Received NULL second block." else
  if !BLOCK_IS_FREE (getBlock h.mem block1).size then .error "The first block is not free." else
  if !BLOCK_IS_FREE (getBlock h.mem block2).size then .error "The second block is not free." else
  if (getBlock h.mem block1).next ≠ some block2 then .error "The blocks are not adjacent." else
  match __blkmngr_remove_from_freelist h block2 with
  | .error e => .error e
  | .ok h1 =>
    let mem1 := updBlock h1.mem block1 (fun b => { b with next := (getBlock h1.mem block2).next })
    let mem2 := updBlock mem1 block1 (fun b =>
      { b with size := add32 (add32 (BLOCK_REAL_SIZE b.size)
                                    (BLOCK_REAL_SIZE (getBlock mem1 block2).size)) OVERHEAD })
    let mem3 := updBlock mem2 block1 (fun b => { b with size := BLOCK_SET_FREE b.size })
    let hdr1 := if h1.hdr.tail = some block2 then { h1.hdr with tail := some block1 } else h1.hdr
    .ok { h1 with hdr := hdr1, mem := mem3 }

/-- __do_brk, lines 261-283 of kheap.c: fail (returning null, modelled as
none, with no state change) when the new top would pass vm_end, otherwise
advance brk and return the old top. -/
def __do_brk (h : Heap) (increment : Nat) : Option (Heap × Nat) :=
  let new_heap_top := add32 h.brk increment
  if new_heap_top > h.vmEnd then none
  else some ({ h with brk := new_heap_top }, sub32 new_heap_top increment)

/-- __do_malloc, lines 289-331 of kheap.c: zero size yields a null result
with no state change; otherwise round the size, search for a best fit, split
when the found block is strictly larger, remove it from the free list; when
no block fits, grow the heap by rounded size plus overhead and link the new
block after the recorded tail (the tail pointer itself is not updated by this
path). A null result of __do_brk hits the assert, a fatal error. -/
def __do_malloc (h : Heap) (size : Nat) : Except String (Heap × Option Nat) :=
  if size = 0 then .ok (h, none) else
  let rounded_size := __blkmngr_get_rounded_size size
  match __blkmngr_find_best_fitting h rounded_size with
  | some block =>
    let step1 :=
      if BLOCK_REAL_SIZE (getBlock h.mem block).size > rounded_size then
        __blkmngr_split_block h block rounded_size
      else
        .ok h
    match step1 with
    | .error e => .error e
    | .ok h1 =>
      match __blkmngr_remove_from_freelist h1 block with
      | .error e => .error e
      | .ok h2 =>
        .ok ({ h2 with mem := updBlock h2.mem block (fun b => { b with size := BLOCK_SET_USED b.size }) },
             some (block + OVERHEAD))
  | none =>
    match __do_brk h (add32 rounded_size OVERHEAD) with
    | none => .error "Failed to create a new block!"
    | some (h1, block) =>
      match h1.hdr.tail with
      | none => .error "The tail is not set!"
      | some tail =>
        let mem1 := updBlock h1.mem tail (fun t => { t with next := some block })
        let mem2 := setBlock mem1 block
          { size := rounded_size, prev := some tail, next := none, prevfree := none, nextfree := none }
        let mem3 := updBlock mem2 block (fun b => { b with size := BLOCK_SET_USED b.size })
        .ok ({ h1 with mem := mem3 }, some (block + OVERHEAD))

/-- __do_free, lines 336-365 of kheap.c: locate the record one overhead before
the payload pointer, compute address-list neighbors through the header-aware
helpers, mark the block free, then run exactly one of the four coalescing
branches. -/
def __do_free (h : Heap) (ptr : Nat) : Except String Heap :=
  let block := ptr - OVERHEAD
  match __blkmngr_get_previous_block h block with
  | .error e => .error e
  | .ok prev =>
    match __blkmngr_get_next_block h block with
    | .error e => .error e
    | .ok next =>
      let h1 := { h with mem := updBlock h.mem block (fun b => { b with size := BLOCK_SET_FREE b.size }) }
      match prev, next with
      | some p, some n =>
        if BLOCK_IS_FREE (getBlock h1.mem p).size && BLOCK_IS_FREE (getBlock h1.mem n).size then
          match __blkmngr_merge_blocks h1 p block with
          | .error e => .error e
          | .ok h2 => __blkmngr_merge_blocks h2 p n
        else if BLOCK_IS_FREE (getBlock h1.mem p).size then
          __blkmngr_merge_blocks h1 p block
        else if BLOCK_IS_FREE (getBlock h1.mem n).size then
          match __blkmngr_merge_blocks h1 block n with
          | .error e => .error e
          | .ok h2 => __blkmngr_add_to_freelist h2 block
        else
          __blkmngr_add_to_freelist h1 block
      | some p, none =>
        if BLOCK_IS_FREE (getBlock h1.mem p).size then
          __blkmngr_merge_blocks h1 p block
        else
          __blkmngr_add_to_freelist h1 block
      | none, some n =>
        if BLOCK_IS_FREE (getBlock h1.mem n).size then
          match __blkmngr_merge_blocks h1 block n with
          | .error e => .error e
          | .ok h2 => __blkmngr_add_to_freelist h2 block
        else
          __blkmngr_add_to_freelist h1 block
      | none, none => __blkmngr_add_to_freelist h1 block

/-- The fixed heap payload size chosen by sys_brk: 4 MiB. -/
def HEAP_SIZE : Nat := 4194304

/-- The fixed virtual start of the heap region: 0x40000000. -/
def HEAP_VM_START : Nat := 1073741824

/-- The reserved segment: payload plus header plus one block record. -/
def segment_size : Nat := HEAP_SIZE + sizeof_heap_header_t + OVERHEAD

/-- The heap produced by the lazy-creation branch of sys_brk (lines 378-415
of kheap.c). The region is zeroed; brk is set just past the 12-byte header;
head, tail and free all point at the first block, which the code places at
header + sizeof(heap_header_t) IN UNITS OF heap_header_t (typed pointer
arithmetic), that is at byte offset 12 * 12 = 144, not 12; the block gets
size HEAP_SIZE and is marked free (its prevfree is left as memset zero). -/
def initHeap : Heap :=
  { vmStart := HEAP_VM_START
  , vmEnd := HEAP_VM_START + segment_size
  , brk := HEAP_VM_START + sizeof_heap_header_t
  , hdr := { head := some (HEAP_VM_START + sizeof_heap_header_t * sizeof_heap_header_t)
           , tail := some (HEAP_VM_START + sizeof_heap_header_t * sizeof_heap_header_t)
           , free := some (HEAP_VM_START + sizeof_heap_header_t * sizeof_heap_header_t) }
  , mem := [(HEAP_VM_START + sizeof_heap_header_t * sizeof_heap_header_t,
             { size := BLOCK_SET_FREE HEAP_SIZE
             , prev := none, next := none, prevfree := none, nextfree := none })] }

/-- Per-process state visible to sys_brk: the heap region, if created. -/
structure ProcState where
  heap : Option Heap
deriving Repr, DecidableEq

/-- sys_brk, lines 367-429 of kheap.c: create the heap lazily, then dispatch
the argument: strictly inside (vm_start, vm_end) means free (null returned),
anything else means malloc of that many bytes. -/
def sys_brk (p : ProcState) (addr : Nat) : Except String (ProcState × Option Nat) :=
  let heap := match p.heap with | some h => h | none => initHeap
  if heap.vmStart < addr ∧ addr < heap.vmEnd then
    match __do_free heap addr with
    | .error e => .error e
    | .ok h2 => .ok ({ heap := some h2 }, none)
  else
    match __do_malloc heap addr with
    | .error e => .error e
    | .ok (h2, r) => .ok ({ heap := some h2 }, r)

/-- A process that has never touched its heap. -/
def initProc : ProcState := { heap := none }

/-- Run a sequence of sys_brk calls, stopping at the first fatal assert. -/
def runCalls (p : ProcState) : List Nat → Except String ProcState
  | [] => .ok p
  | a :: rest =>
    match sys_brk p a with
    | .error e => .error e
    | .ok (p2, _) => runCalls p2 rest

/-- Whether a call sequence completes without a fatal assert. -/
def runOk (p : ProcState) (l : List Nat) : Bool :=
  match runCalls p l with
  | .ok _ => true
  | .error _ => false

/-- The heap after a call sequence (initHeap as a dummy on a fatal assert or
an untouched process; all uses are guarded by runOk). -/
def heapAfter (p : ProcState) (l : List Nat) : Heap :=
  match runCalls p l with
  | .ok q => match q.heap with | some h => h | none => initHeap
  | .error _ => initHeap

end Kheap

namespace Kheap

/-- C5: the claim says the lazily created region places exactly one giant free
Block immediately after the Heap Region header with brk just past the header.
The code sets brk to vmStart + 12 (just past the 12-byte header) but computes
the head block address with typed pointer arithmetic, header +
sizeof(heap_header_t) heap_header_t-elements, landing at byte offset 144; the
giant block is therefore not immediately after the header, and its payload
(20-byte record plus 4 MiB starting at offset 144) overruns vm_end. -/
theorem first_block_misplaced_bug :
    initHeap.brk = HEAP_VM_START + 12
    ∧ initHeap.hdr.head = some (HEAP_VM_START + 144)
    ∧ initHeap.hdr.tail = some (HEAP_VM_START + 144)
    ∧ initHeap.hdr.free = some (HEAP_VM_START + 144)
    ∧ HEAP_VM_START + 144 ≠ HEAP_VM_START + 12
    ∧ BLOCK_IS_FREE (getBlock initHeap.mem (HEAP_VM_START + 144)).size = true
    ∧ initHeap.vmEnd <
        HEAP_VM_START + 144 + OVERHEAD + BLOCK_REAL_SIZE (getBlock initHeap.mem (HEAP_VM_START + 144)).size := by
  decide

/-- C2: the claim says that after growth links a new block after the old tail,
the tail pointer designates the new last block, and the block list stays
strictly ascending in address. After the run [malloc 4194304, malloc 16] the
growth path has executed once: the recorded tail is still the old block at
offset 144, whose next link points at the freshly grown block at offset 12
(the old brk), which is the actual last node and lies at a LOWER address. -/
theorem tail_not_updated_on_growth_bug :
    runOk initProc [4194304, 16] = true
    ∧ (heapAfter initProc [4194304, 16]).hdr.tail = some (HEAP_VM_START + 144)
    ∧ (getBlock (heapAfter initProc [4194304, 16]).mem (HEAP_VM_START + 144)).next
        = some (HEAP_VM_START + 12)
    ∧ (getBlock (heapAfter initProc [4194304, 16]).mem (HEAP_VM_START + 12)).next = none
    ∧ HEAP_VM_START + 12 < HEAP_VM_START + 144 := by
  decide

/-- C6: the claim says that after any free completes no two adjacent blocks
are both free. After [malloc 4194304, malloc 16, free, free] the final free
of the block at offset 144 sees a stale tail pointer (never updated by the
growth path), so get_next_block returns null and the merge with its free
link-successor at offset 12 is skipped: two adjacent blocks end up free. -/
theorem missed_coalescing_bug :
    runOk initProc [4194304, 16, HEAP_VM_START + 32, HEAP_VM_START + 164] = true
    ∧ BLOCK_IS_FREE (getBlock (heapAfter initProc
        [4194304, 16, HEAP_VM_START + 32, HEAP_VM_START + 164]).mem (HEAP_VM_START + 144)).size = true
    ∧ BLOCK_IS_FREE (getBlock (heapAfter initProc
        [4194304, 16, HEAP_VM_START + 32, HEAP_VM_START + 164]).mem (HEAP_VM_START + 12)).size = true
    ∧ (getBlock (heapAfter initProc
        [4194304, 16, HEAP_VM_START + 32, HEAP_VM_START + 164]).mem (HEAP_VM_START + 144)).next
        = some (HEAP_VM_START + 12) := by
  decide

/-- C3: the claim says the free list stays doubly-linked consistent and that
free links never designate allocated blocks. After [malloc 4194304, malloc 16,
free, free, malloc 64] the last allocation splits the block at offset 144
while it has a free-list successor; split never patches that successor's
prevfree, so afterwards the free chain is offset 228 then offset 12, yet the
block at offset 12 still has prevfree pointing at the (now allocated) block
at offset 144 instead of at offset 228. -/
theorem split_breaks_freelist_links_bug :
    runOk initProc [4194304, 16, HEAP_VM_START + 32, HEAP_VM_START + 164, 64] = true
    ∧ (heapAfter initProc [4194304, 16, HEAP_VM_START + 32, HEAP_VM_START + 164, 64]).hdr.free
        = some (HEAP_VM_START + 228)
    ∧ (getBlock (heapAfter initProc
        [4194304, 16, HEAP_VM_START + 32, HEAP_VM_START + 164, 64]).mem (HEAP_VM_START + 228)).nextfree
        = some (HEAP_VM_START + 12)
    ∧ (getBlock (heapAfter initProc
        [4194304, 16, HEAP_VM_START + 32, HEAP_VM_START + 164, 64]).mem (HEAP_VM_START + 12)).prevfree
        = some (HEAP_VM_START + 144)
    ∧ BLOCK_IS_FREE (getBlock (heapAfter initProc
        [4194304, 16, HEAP_VM_START + 32, HEAP_VM_START + 164, 64]).mem (HEAP_VM_START + 144)).size
        = false := by
  decide

/-- C4: the claim says splitting is skipped whenever real_size(block) <
size + header_size, and that a remainder always has the non-negative size
old_real_size - size - header_size. The code splits whenever real_size(block)
> size: on a fresh heap, malloc(4194288) finds the 4194304-byte block
(4194304 < 4194288 + 20, so the claim says skip), splits anyway, and the
uint32_t remainder size underflows to 4294967292, a giant "free" block whose
record even lies past vm_end. -/
theorem split_size_underflow_bug :
    runOk initProc [4194288] = true
    ∧ BLOCK_REAL_SIZE 4194305 < 4194288 + OVERHEAD
    ∧ BLOCK_IS_FREE (getBlock (heapAfter initProc [4194288]).mem
        (HEAP_VM_START + 4194452)).size = true
    ∧ BLOCK_REAL_SIZE (getBlock (heapAfter initProc [4194288]).mem
        (HEAP_VM_START + 4194452)).size = 4294967292
    ∧ (heapAfter initProc [4194288]).hdr.free = some (HEAP_VM_START + 4194452)
    ∧ (heapAfter initProc [4194288]).vmEnd < HEAP_VM_START + 4194452 := by
  decide

/-- C1 counterexample: the claim says an allocation that no free block
satisfies and that cannot grow within the region returns a null result and
changes nothing. On the concrete run [malloc 4194304, malloc 4194304,
malloc 16] the third call exhausts the region and the allocator dies on the
assert "Failed to create a new block!" instead of returning null. -/
theorem exhaustion_is_fatal_counterexample :
    runCalls initProc [4194304, 4194304, 16] = .error "Failed to create a new block!" := by
  rfl

end Kheap

namespace Kheap

/-- A used block at address 12 that is not a member of the free list (the free
list holds only the block at address 40). -/
def h9 : Heap :=
  { vmStart := 0, vmEnd := 200, brk := 100
  , hdr := { head := some 12, tail := some 40, free := some 40 }
  , mem := [(12, { size := 16, nextfree := none, prevfree := none, prev := none, next := some 40 }),
            (40, { size := 33, nextfree := none, prevfree := none, prev := some 12, next := none })] }

/-- C9 counterexample: the claim says calling remove_from_free_list on a
non-member block is detected and asserted as a fatal error, never silently
ignored. On the concrete heap h9 the block at address 12 is allocated and not
in the free list, yet the call returns ok with the heap unchanged: no
assertion fires and the call is silently ignored. -/
theorem remove_nonmember_silent_counterexample :
    __blkmngr_remove_from_freelist h9 12 = .ok h9
    ∧ h9.hdr.free = some 40
    ∧ BLOCK_IS_FREE (getBlock h9.mem 12).size = false
    ∧ (getBlock h9.mem 12).prevfree = none
    ∧ (getBlock h9.mem 12).nextfree = none := by
  exact ⟨rfl, rfl, rfl, rfl, rfl⟩

/-- C9 amended: remove_from_free_list asserts only that its arguments are
non-null. Called on any block that is not the free-list head and whose free
links are null (every allocated block), it silently rewrites the two
already-null links of that block and touches nothing else: the header, the
free list and every other record are unchanged. -/
theorem remove_nonmember_is_silent (h : Heap) (a : Nat)
    (ha : a ≠ 0) (hf : h.hdr.free ≠ some a)
    (hp : (getBlock h.mem a).prevfree = none) (hn : (getBlock h.mem a).nextfree = none) :
    __blkmngr_remove_from_freelist h a
      = .ok { h with mem := setBlock h.mem a ({ getBlock h.mem a with prevfree := none, nextfree := none }) } := by
  unfold __blkmngr_remove_from_freelist updBlock
  rw [if_neg ha]
  simp only [if_neg hf, hp, hn]

theorem remove_nonmember_is_silent_witness :
    __blkmngr_remove_from_freelist h9 12
      = .ok { h9 with mem := setBlock h9.mem 12 ({ getBlock h9.mem 12 with prevfree := none, nextfree := none }) } :=
  remove_nonmember_is_silent h9 12 (by decide) (by decide) rfl rfl

/-- C1 amended: when no free block satisfies the rounded request and growing
by rounded size plus overhead would pass vm_end, __do_brk itself fails softly
(null, no state change), but __do_malloc feeds its null result into the
assert "Failed to create a new block!": region exhaustion is a fatal
assertion failure rather than a recoverable null allocation. -/
theorem malloc_exhaustion_asserts (h : Heap) (size : Nat)
    (hs : size ≠ 0)
    (hfind : __blkmngr_find_best_fitting h (__blkmngr_get_rounded_size size) = none)
    (hcap : h.vmEnd < add32 h.brk (add32 (__blkmngr_get_rounded_size size) OVERHEAD)) :
    __do_malloc h size = .error "Failed to create a new block!"
    ∧ __do_brk h (add32 (__blkmngr_get_rounded_size size) OVERHEAD) = none := by
  have hbrk : __do_brk h (add32 (__blkmngr_get_rounded_size size) OVERHEAD) = none := by
    unfold __do_brk
    rw [if_pos hcap]
  refine ⟨?_, hbrk⟩
  unfold __do_malloc
  rw [if_neg hs]
  simp only [hfind, hbrk]

/-- A heap whose free list is empty and whose remaining region capacity is
smaller than any grown block: brk 32 in a region ending at 40. -/
def h1w : Heap :=
  { vmStart := 0, vmEnd := 40, brk := 32
  , hdr := { head := some 12, tail := some 12, free := none }
  , mem := [(12, { size := 16, nextfree := none, prevfree := none, prev := none, next := none })] }

theorem malloc_exhaustion_asserts_witness :
    __do_malloc h1w 16 = .error "Failed to create a new block!"
    ∧ __do_brk h1w (add32 (__blkmngr_get_rounded_size 16) OVERHEAD) = none :=
  malloc_exhaustion_asserts h1w 16 (by decide) (by decide) (by decide)

end Kheap

namespace Kheap

/-- The best-fit loop returns none exactly when the accumulator is empty and
no scanned entry fits. -/
theorem bestFitAux_none_iff (size : Nat) :
    ∀ (L : List (Nat × BlockT)) (acc : Option (Nat × BlockT)),
      bestFitAux size L acc = none
        ↔ acc = none ∧ ∀ y ∈ L, __blkmngr_does_it_fit y.2 size = false := by
  intro L
  induction L with
  | nil =>
    intro acc
    simp [bestFitAux]
  | cons hd rest ih =>
    intro acc
    obtain ⟨a, b⟩ := hd
    cases hfc : __blkmngr_does_it_fit b size with
    | false =>
      simp only [bestFitAux, hfc, Bool.false_eq_true, if_false, ih]
      constructor
      · rintro ⟨h1, h2⟩
        refine ⟨h1, ?_⟩
        intro y hy
        rcases List.mem_cons.mp hy with rfl | hy2
        · exact hfc
        · exact h2 y hy2
      · rintro ⟨h1, h2⟩
        exact ⟨h1, fun y hy => h2 y (List.mem_cons_of_mem _ hy)⟩
    | true =>
      simp only [bestFitAux, hfc, if_true]
      constructor
      · intro h
        exfalso
        cases acc with
        | none => exact absurd ((ih (some (a, b))).mp h).1 (by simp)
        | some c =>
          have h2 : (if BLOCK_REAL_SIZE b.size < BLOCK_REAL_SIZE c.2.size then
              bestFitAux size rest (some (a, b)) else bestFitAux size rest (some c)) = none := h
          by_cases hlt : BLOCK_REAL_SIZE b.size < BLOCK_REAL_SIZE c.2.size
          · rw [if_pos hlt] at h2
            exact absurd ((ih (some (a, b))).mp h2).1 (by simp)
          · rw [if_neg hlt] at h2
            exact absurd ((ih (some c)).mp h2).1 (by simp)
      · rintro ⟨h1, h2⟩
        exact absurd (h2 (a, b) (List.mem_cons_self _ _)) (by simp [hfc])

/-- The invariant of the best-fit loop: a returned candidate either is the
incoming accumulator and no scanned fitting entry beats it, or it occurs in
the scanned list, fits, strictly beats the incoming accumulator and every
fitting entry before it, and is not beaten by any fitting entry after it. -/
theorem bestFitAux_spec (size : Nat) :
    ∀ (L : List (Nat × BlockT)) (acc : Option (Nat × BlockT)) (x : Nat × BlockT),
      bestFitAux size L acc = some x →
      (acc = some x ∧ ∀ y ∈ L, __blkmngr_does_it_fit y.2 size = true →
          BLOCK_REAL_SIZE x.2.size ≤ BLOCK_REAL_SIZE y.2.size)
      ∨ (∃ L1 L2, L = L1 ++ x :: L2 ∧ __blkmngr_does_it_fit x.2 size = true
          ∧ (∀ c, acc = some c → BLOCK_REAL_SIZE x.2.size < BLOCK_REAL_SIZE c.2.size)
          ∧ (∀ y ∈ L1, __blkmngr_does_it_fit y.2 size = true →
              BLOCK_REAL_SIZE x.2.size < BLOCK_REAL_SIZE y.2.size)
          ∧ (∀ y ∈ L2, __blkmngr_does_it_fit y.2 size = true →
              BLOCK_REAL_SIZE x.2.size ≤ BLOCK_REAL_SIZE y.2.size)) := by
  intro L
  induction L with
  | nil =>
    intro acc x h
    left
    refine ⟨by simpa [bestFitAux] using h, ?_⟩
    intro y hy
    exact absurd hy (List.not_mem_nil y)
  | cons hd rest ih =>
    intro acc x h
    obtain ⟨a, b⟩ := hd
    cases hfc : __blkmngr_does_it_fit b size with
    | false =>
      rw [show bestFitAux size ((a, b) :: rest) acc = bestFitAux size rest acc by
            simp [bestFitAux, hfc]] at h
      rcases ih acc x h with ⟨hacc, hall⟩ | ⟨L1, L2, hL, hfx, haccb, h1, h2⟩
      · left
        refine ⟨hacc, ?_⟩
        intro y hy hyf
        rcases List.mem_cons.mp hy with rfl | hy2
        · exact absurd hyf (by simp [hfc])
        · exact hall y hy2 hyf
      · right
        refine ⟨(a, b) :: L1, L2, by rw [hL]; rfl, hfx, haccb, ?_, h2⟩
        intro y hy hyf
        rcases List.mem_cons.mp hy with rfl | hy2
        · exact absurd hyf (by simp [hfc])
        · exact h1 y hy2 hyf
    | true =>
      cases acc with
      | none =>
        rw [show bestFitAux size ((a, b) :: rest) none = bestFitAux size rest (some (a, b)) by
              simp [bestFitAux, hfc]] at h
        rcases ih (some (a, b)) x h with ⟨hacc, hall⟩ | ⟨L1, L2, hL, hfx, haccb, h1, h2⟩
        · have hx : (a, b) = x := by injection hacc
          right
          refine ⟨[], rest, by rw [← hx]; rfl, by rw [← hx]; exact hfc, ?_, ?_, ?_⟩
          · intro c hc
            simp at hc
          · intro y hy
            exact absurd hy (List.not_mem_nil y)
          · intro y hy hyf
            exact hall y hy hyf
        · right
          have hxb : BLOCK_REAL_SIZE x.2.size < BLOCK_REAL_SIZE b.size := haccb (a, b) rfl
          refine ⟨(a, b) :: L1, L2, by rw [hL]; rfl, hfx, ?_, ?_, h2⟩
          · intro c hc
            simp at hc
          · intro y hy hyf
            rcases List.mem_cons.mp hy with rfl | hy2
            · exact hxb
            · exact h1 y hy2 hyf
      | some c0 =>
        by_cases hlt : BLOCK_REAL_SIZE b.size < BLOCK_REAL_SIZE c0.2.size
        · rw [show bestFitAux size ((a, b) :: rest) (some c0) = bestFitAux size rest (some (a, b)) by
                simp [bestFitAux, hfc, hlt]] at h
          rcases ih (some (a, b)) x h with ⟨hacc, hall⟩ | ⟨L1, L2, hL, hfx, haccb, h1, h2⟩
          · have hx : (a, b) = x := by injection hacc
            right
            refine ⟨[], rest, by rw [← hx]; rfl, by rw [← hx]; exact hfc, ?_, ?_, ?_⟩
            · intro c hc
              injection hc with hc
              subst hc
              rw [← hx]
              exact hlt
            · intro y hy
              exact absurd hy (List.not_mem_nil y)
            · intro y hy hyf
              exact hall y hy hyf
          · right
            have hxb : BLOCK_REAL_SIZE x.2.size < BLOCK_REAL_SIZE b.size := haccb (a, b) rfl
            refine ⟨(a, b) :: L1, L2, by rw [hL]; rfl, hfx, ?_, ?_, h2⟩
            · intro c hc
              injection hc with hc
              subst hc
              exact hxb.trans hlt
            · intro y hy hyf
              rcases List.mem_cons.mp hy with rfl | hy2
              · exact hxb
              · exact h1 y hy2 hyf
        · rw [show bestFitAux size ((a, b) :: rest) (some c0) = bestFitAux size rest (some c0) by
                simp [bestFitAux, hfc, hlt]] at h
          rcases ih (some c0) x h with ⟨hacc, hall⟩ | ⟨L1, L2, hL, hfx, haccb, h1, h2⟩
          · left
            refine ⟨hacc, ?_⟩
            intro y hy hyf
            rcases List.mem_cons.mp hy with rfl | hy2
            · have hx : c0 = x := by injection hacc
              rw [← hx]
              exact Nat.le_of_not_lt hlt
            · exact hall y hy2 hyf
          · right
            have hxc : BLOCK_REAL_SIZE x.2.size < BLOCK_REAL_SIZE c0.2.size := haccb c0 rfl
            refine ⟨(a, b) :: L1, L2, by rw [hL]; rfl, hfx, haccb, ?_, h2⟩
            intro y hy hyf
            rcases List.mem_cons.mp hy with rfl | hy2
            · exact hxc.trans_le (Nat.le_of_not_lt hlt)
            · exact h1 y hy2 hyf

/-- C7: the best-fit search over the free list returns not-found exactly when
no free-list entry fits the request, and when it returns a block that block
fits, every fitting entry scanned before it is strictly larger (ties are won
by the first encountered) and every fitting entry after it is at least as
large: the result is a smallest sufficient free block, never an insufficient
one, and never one beaten by a smaller sufficient free block. -/
theorem best_fit_search_correct (h : Heap) (size : Nat) :
    (__blkmngr_find_best_fitting h size = none ↔
      ∀ y ∈ freeChainAux h.mem h.hdr.free (h.mem.length + 1),
        __blkmngr_does_it_fit y.2 size = false)
    ∧ (∀ a, __blkmngr_find_best_fitting h size = some a →
      ∃ b L1 L2,
        freeChainAux h.mem h.hdr.free (h.mem.length + 1) = L1 ++ (a, b) :: L2
        ∧ __blkmngr_does_it_fit b size = true
        ∧ (∀ y ∈ L1, __blkmngr_does_it_fit y.2 size = true →
            BLOCK_REAL_SIZE b.size < BLOCK_REAL_SIZE y.2.size)
        ∧ (∀ y ∈ L2, __blkmngr_does_it_fit y.2 size = true →
            BLOCK_REAL_SIZE b.size ≤ BLOCK_REAL_SIZE y.2.size)) := by
  constructor
  · unfold __blkmngr_find_best_fitting
    rw [Option.map_eq_none']
    rw [bestFitAux_none_iff]
    simp
  · intro a hfind
    unfold __blkmngr_find_best_fitting at hfind
    rcases Option.map_eq_some'.mp hfind with ⟨x, hx, hxa⟩
    obtain ⟨a1, b1⟩ := x
    simp only at hxa
    subst hxa
    rcases bestFitAux_spec size _ none (a1, b1) hx with ⟨hacc, _⟩ | ⟨L1, L2, hL, hfx, _, h1, h2⟩
    · simp at hacc
    · exact ⟨b1, L1, L2, hL, hfx, h1, h2⟩

/-- A heap with an empty free list (one allocated block only). -/
def h7 : Heap :=
  { vmStart := 0, vmEnd := 100, brk := 48
  , hdr := { head := some 12, tail := some 12, free := none }
  , mem := [(12, { size := 16, nextfree := none, prevfree := none, prev := none, next := none })] }

theorem best_fit_search_correct_witness :
    __blkmngr_find_best_fitting h7 16 = none := by
  refine (best_fit_search_correct h7 16).1.mpr ?_
  intro y hy
  have hchain : freeChainAux h7.mem h7.hdr.free (h7.mem.length + 1) = [] := rfl
  rw [hchain] at hy
  exact absurd hy (List.not_mem_nil y)

end Kheap

namespace Kheap

/-- Every normal (non-asserting) return of __do_malloc carries a payload
pointer except for the zero-size request, which returns null. -/
theorem malloc_ok_result (h : Heap) (size : Nat) (h2 : Heap) (r : Option Nat)
    (hml : __do_malloc h size = .ok (h2, r)) : (r = none ↔ size = 0) := by
  by_cases hs : size = 0
  · subst hs
    unfold __do_malloc at hml
    rw [if_pos rfl] at hml
    simp only [Except.ok.injEq, Prod.mk.injEq] at hml
    simp [← hml.2]
  · have hq : ∃ q, r = some q := by
      unfold __do_malloc at hml
      rw [if_neg hs] at hml
      simp only [] at hml
      split at hml
      · split at hml
        · exact absurd hml (by simp)
        · split at hml
          · exact absurd hml (by simp)
          · simp only [Except.ok.injEq, Prod.mk.injEq] at hml
            exact ⟨_, hml.2.symm⟩
      · split at hml
        · exact absurd hml (by simp)
        · split at hml
          · exact absurd hml (by simp)
          · simp only [Except.ok.injEq, Prod.mk.injEq] at hml
            exact ⟨_, hml.2.symm⟩
    rcases hq with ⟨q, rfl⟩
    simp [hs]

/-- C8: on a process whose heap is initialized, sys_brk dispatches on the
argument: strictly inside the region it runs the free path on that pointer
and returns no payload; otherwise it runs the allocation path on the
argument as a size, whose normal result is a payload pointer, null exactly
for a zero-size request. -/
theorem sys_brk_dispatch (p : ProcState) (hp0 : Heap) (arg : Nat)
    (hp : p.heap = some hp0) :
    ((hp0.vmStart < arg ∧ arg < hp0.vmEnd) →
      sys_brk p arg
        = Except.map (fun h2 => ({ heap := some h2 }, (none : Option Nat))) (__do_free hp0 arg))
    ∧ (¬(hp0.vmStart < arg ∧ arg < hp0.vmEnd) →
      sys_brk p arg
        = Except.map (fun x => ({ heap := some x.1 }, x.2)) (__do_malloc hp0 arg)
      ∧ ∀ h2 r, __do_malloc hp0 arg = .ok (h2, r) → (r = none ↔ arg = 0)) := by
  constructor
  · intro hin
    unfold sys_brk
    simp only [hp]
    rw [if_pos hin]
    cases hdf : __do_free hp0 arg <;> simp [Except.map]
  · intro hout
    refine ⟨?_, fun h2 r hml => malloc_ok_result hp0 arg h2 r hml⟩
    unfold sys_brk
    simp only [hp]
    rw [if_neg hout]
    cases hml : __do_malloc hp0 arg with
    | error e => simp [Except.map]
    | ok pr =>
      obtain ⟨hh, rr⟩ := pr
      simp [Except.map]

theorem sys_brk_dispatch_witness :
    sys_brk { heap := some initHeap } 16
      = Except.map (fun x => ({ heap := some x.1 }, x.2)) (__do_malloc initHeap 16) :=
  ((sys_brk_dispatch { heap := some initHeap } initHeap 16 rfl).2 (by decide)).1

/-- C10: on a process whose heap was never created, a single sys_brk call
first builds the fresh region (initHeap, on which nothing was ever
allocated: its only block is free) and immediately dispatches the argument
against the fresh bounds, so an argument falling strictly inside them is
executed as a free on the brand-new heap, not as an allocation. -/
theorem first_call_in_range_is_free (p : ProcState) (arg : Nat)
    (hp : p.heap = none)
    (h1 : HEAP_VM_START < arg) (h2 : arg < HEAP_VM_START + segment_size) :
    sys_brk p arg
      = Except.map (fun hh => ({ heap := some hh }, (none : Option Nat))) (__do_free initHeap arg)
    ∧ BLOCK_IS_FREE (getBlock initHeap.mem (HEAP_VM_START + 144)).size = true := by
  refine ⟨?_, rfl⟩
  unfold sys_brk
  simp only [hp]
  rw [if_pos ⟨h1, h2⟩]
  cases hdf : __do_free initHeap arg <;> simp [Except.map]

theorem first_call_in_range_is_free_witness :
    sys_brk { heap := none } (HEAP_VM_START + 164)
      = Except.map (fun hh => ({ heap := some hh }, (none : Option Nat)))
          (__do_free initHeap (HEAP_VM_START + 164))
    ∧ BLOCK_IS_FREE (getBlock initHeap.mem (HEAP_VM_START + 144)).size = true :=
  first_call_in_range_is_free { heap := none } (HEAP_VM_START + 164) rfl (by decide) (by decide)

end Kheap
